import Mathlib

/-!
Shallow embedding of the AppFlowy-Collab core: structured accessors for
rows/fields/views over a generic map substrate, creation-parameter
validation and duplication, the history plugin, the sync plugin's
local-update callback, and the document children map.

The CRDT substrate (yrs) is modelled as immutable association-list maps
with explicit state passing; impure inputs of the source (current
timestamp, fresh-id generators) are passed as explicit parameters.
-/

/-- Model of a `yrs` value (`Out` / `Any`): booleans, 64-bit integers,
strings, and nested maps, which is all the row/cell accessors touch. -/
inductive YrsOut : Type where
  | vBool : Bool → YrsOut
  | vI64 : Int → YrsOut
  | vStr : String → YrsOut
  | vMap : List (String × YrsOut) → YrsOut

/-- A `MapRef`: an association list from string keys to values. -/
abbrev YMap := List (String × YrsOut)

/-- Key lookup on a map, first binding wins (as in a `yrs` map, where keys
are unique). -/
def mapGet (m : YMap) (k : String) : Option YrsOut :=
  match m with
  | [] => none
  | (k2, v) :: rest => if k2 = k then some v else mapGet rest k

/-- Key insert on a map: replaces the first binding of the key in place,
or appends a new binding at the end. -/
def mapInsert (m : YMap) (k : String) (v : YrsOut) : YMap :=
  match m with
  | [] => [(k, v)]
  | (k2, v2) :: rest =>
    if k2 = k then (k2, v) :: rest else (k2, v2) :: mapInsert rest k v

/-- `MapRefExtension::get_i64_with_txn`. -/
def get_i64_with_txn (m : YMap) (k : String) : Option Int :=
  match mapGet m k with
  | some (.vI64 n) => some n
  | _ => none

/-- `MapRefExtension::get_bool_with_txn`. -/
def get_bool_with_txn (m : YMap) (k : String) : Option Bool :=
  match mapGet m k with
  | some (.vBool b) => some b
  | _ => none

/-- `MapRefExtension::get_str_with_txn`. -/
def get_str_with_txn (m : YMap) (k : String) : Option String :=
  match mapGet m k with
  | some (.vStr s) => some s
  | _ => none

/-- `MapRefExtension::get_map_with_txn`. -/
def get_map_with_txn (m : YMap) (k : String) : Option YMap :=
  match mapGet m k with
  | some (.vMap mm) => some mm
  | _ => none

/-- Rust `as i32` wrapping cast from a 64-bit to a 32-bit signed integer. -/
def i64_as_i32 (n : Int) : Int :=
  (n + 2 ^ 31) % 2 ^ 32 - 2 ^ 31

/-! ### Rows (`collab-database/src/rows/row.rs`) -/

/-- `RowId`: an opaque 64-bit id (`pub struct RowId(i64)`). -/
abbrev RowId := Int

/-- `pub type BlockId = i64`. -/
abbrev BlockId := Int

/-- A single `Cell`: an attribute map keyed by strings (its shape depends
on the field type; the accessors treat it as an opaque nested map). -/
abbrev Cell := YMap

/-- `Cells`: map from field id to `Cell`. -/
abbrev Cells := List (String × Cell)

/-- The `Row` entity. -/
structure Row where
  id : RowId
  block_id : BlockId
  cells : Cells
  height : Int
  visibility : Bool
  created_at : Int

/-- Map keys used by the row accessors (`ROW_ID`, `BLOCK_ID`,
`ROW_VISIBILITY`, `ROW_HEIGHT`, `CREATED_AT`, `ROW_CELLS`). -/
def ROW_ID : String := "id"

def BLOCK_ID : String := "bid"

def ROW_VISIBILITY : String := "visibility"

def ROW_HEIGHT : String := "height"

def CREATED_AT : String := "created_at"

def ROW_CELLS : String := "cells"

/-- Modelled from the spec: `Cells::from((txn, &MapRef))` (the `Cells`
conversion lives outside the provided sources) reads every nested-map
entry of the cells map as one field-id → cell binding. -/
def cells_from_map_ref (m : YMap) : Cells :=
  m.filterMap fun kv =>
    match kv.2 with
    | .vMap cm => some (kv.1, cm)
    | _ => none

/-- `Cell::from_map_ref`: reads the cell's attribute map
(modelled from the spec: a `Cell` is the attribute map itself). -/
def Cell.from_map_ref (m : YMap) : Cell := m

/-- `row_from_map_ref`: decode a `Row` from a map, defaulting
missing visibility to `true`, missing height to `60`, missing
`created_at` to the current timestamp `now`, and a missing cells map to
empty; `none` when the id or block id key is missing. -/
def row_from_map_ref (now : Int) (m : YMap) : Option Row :=
  match get_i64_with_txn m ROW_ID with
  | none => none
  | some id =>
    match get_i64_with_txn m BLOCK_ID with
    | none => none
    | some block_id =>
      let visibility := (get_bool_with_txn m ROW_VISIBILITY).getD true
      let height := (get_i64_with_txn m ROW_HEIGHT).getD 60
      let created_at := (get_i64_with_txn m CREATED_AT).getD now
      let cells :=
        match get_map_with_txn m ROW_CELLS with
        | some cm => cells_from_map_ref cm
        | none => []
      some
        { id := id, block_id := block_id, cells := cells,
          height := i64_as_i32 height, visibility := visibility,
          created_at := created_at }

/-- `row_from_value`: `none` when the backing value is not a map
(the entity is absent), otherwise decode through `row_from_map_ref`. -/
def row_from_value (now : Int) (v : YrsOut) : Option Row :=
  match v with
  | .vMap m => row_from_map_ref now m
  | _ => none

/-- `cell_from_map_ref`: read the cell of the given field id out of a
row map; `none` when the cells map or the entry for the field id is
absent. -/
def cell_from_map_ref (m : YMap) (field_id : String) : Option Cell :=
  match get_map_with_txn m ROW_CELLS with
  | none => none
  | some cells_map =>
    match get_map_with_txn cells_map field_id with
    | none => none
    | some cell_map => some (Cell.from_map_ref cell_map)

/-! ### Row builder (`RowBuilder` / `RowUpdate`), as map construction. -/

/-- `RowBuilder::new`: insert the row id and block id into the map. -/
def RowBuilder.new (id : RowId) (block_id : BlockId) : YMap :=
  mapInsert (mapInsert [] ROW_ID (.vI64 id)) BLOCK_ID (.vI64 block_id)

/-- `RowUpdate::set_visibility`. -/
def RowUpdate.set_visibility (m : YMap) (b : Bool) : YMap :=
  mapInsert m ROW_VISIBILITY (.vBool b)

/-- `RowUpdate::set_height` (an `i32` value, stored as an i64). -/
def RowUpdate.set_height (m : YMap) (h : Int) : YMap :=
  mapInsert m ROW_HEIGHT (.vI64 h)

/-- `RowUpdate::set_created_at`. -/
def RowUpdate.set_created_at (m : YMap) (t : Int) : YMap :=
  mapInsert m CREATED_AT (.vI64 t)

/-- Modelled from the spec: `Cells::fill_map_ref` (outside the provided
sources) writes each field-id → cell binding into the cells map as a
nested map, one discrete insert per cell. -/
def Cells.fill_map_ref (cm : YMap) (cells : Cells) : YMap :=
  cells.foldl (fun acc kv => mapInsert acc kv.1 (.vMap kv.2)) cm

/-- `RowUpdate::set_cells`: get-or-insert the cells map, then fill it. -/
def RowUpdate.set_cells (m : YMap) (cells : Cells) : YMap :=
  let cm := (get_map_with_txn m ROW_CELLS).getD []
  mapInsert m ROW_CELLS (.vMap (Cells.fill_map_ref cm cells))

/-- A `RowBuilder::new` followed by one `update` closure that applies
any combination of the `RowUpdate` setters (`none` means the setter is
not called, leaving the field to its default). -/
def buildRowMap (id : RowId) (block_id : BlockId) (ov : Option Bool)
    (oh : Option Int) (oc : Option Int) (ocells : Option Cells) : YMap :=
  let m := RowBuilder.new id block_id
  let m := match ov with | some b => RowUpdate.set_visibility m b | none => m
  let m := match oh with | some h => RowUpdate.set_height m h | none => m
  let m := match oc with | some t => RowUpdate.set_created_at m t | none => m
  match ocells with | some cs => RowUpdate.set_cells m cs | none => m

/-! ### `FieldType` (`collab-database/src/entity.rs`) -/

/-- The `FieldType` enum. -/
inductive FieldType : Type where
  | RichText
  | Number
  | DateTime
  | SingleSelect
  | MultiSelect
  | Checkbox
  | URL
  | Checklist
  | LastEditedTime
  | CreatedTime
  | Relation
  | Summary
  | Translate
  | Time
  | Media
deriving DecidableEq, Repr

/-- `impl From<i64> for FieldType`: discriminants 0..14 map to the
variants in order; every other value falls back to `RichText`. -/
def FieldType.fromI64 (index : Int) : FieldType :=
  if index = 0 then .RichText
  else if index = 1 then .Number
  else if index = 2 then .DateTime
  else if index = 3 then .SingleSelect
  else if index = 4 then .MultiSelect
  else if index = 5 then .Checkbox
  else if index = 6 then .URL
  else if index = 7 then .Checklist
  else if index = 8 then .LastEditedTime
  else if index = 9 then .CreatedTime
  else if index = 10 then .Relation
  else if index = 11 then .Summary
  else if index = 12 then .Translate
  else if index = 13 then .Time
  else if index = 14 then .Media
  else .RichText

/-! ### Views and creation parameters (`collab-database/src/entity.rs`) -/

/-- Modelled from the spec: the `DatabaseLayout` enum (defined outside
the provided sources; only its enumerated kind matters here). -/
inductive DatabaseLayout : Type where
  | Grid
  | Board
  | Calendar
deriving DecidableEq, Repr

/-- Modelled from the spec: a `Field` is {id, name, FieldType variant}
(its definition lives outside the provided sources; named `DBField` here
because `Field` is taken by Mathlib). -/
structure DBField where
  id : String
  name : String
  field_type : FieldType
deriving DecidableEq, Repr

/-- `LayoutSettings`: map from layout to a layout-setting map. -/
abbrev LayoutSettings := List (DatabaseLayout × YMap)

/-- `FilterMap`, `GroupSettingMap`, `SortMap`: opaque attribute maps. -/
abbrev FilterMap := YMap

abbrev GroupSettingMap := YMap

abbrev SortMap := YMap

/-- `FieldSettingsByFieldIdMap`: map from field id to a settings map. -/
abbrev FieldSettingsByFieldIdMap := List (String × YMap)

/-- `FieldOrder`: a field-id list element. -/
structure FieldOrder where
  id : String
deriving DecidableEq, Repr

/-- `RowOrder` exactly as defined in
`collab-database/src/views/row_order.rs`: `{id: String, created_at: i64}`. -/
structure RowOrder where
  id : String
  created_at : Int
deriving DecidableEq, Repr

/-- The `RowOrder` that `row.rs` (and the spec) actually use:
`{row_id, block_id, height}`, built by `RowOrder::new(id, block_id,
height)`. Modelled from the spec: this three-field definition is absent
from the provided sources, whose `views/row_order.rs` holds an
incompatible two-field struct. -/
structure RowOrderSpec where
  id : RowId
  block_id : BlockId
  height : Int
deriving DecidableEq, Repr

/-- `row_order_from_value` (`row.rs`): decode a row order and creation
time from a value; requires the id and block id keys, defaults a missing
height to 60 and a missing created_at to 0 (`unwrap_or_default`). -/
def row_order_from_value (v : YrsOut) : Option (RowOrderSpec × Int) :=
  match v with
  | .vMap map_ref =>
    match get_i64_with_txn map_ref ROW_ID with
    | none => none
    | some id =>
      match get_i64_with_txn map_ref BLOCK_ID with
      | none => none
      | some block_id =>
        let height := (get_i64_with_txn map_ref ROW_HEIGHT).getD 60
        let created_at := (get_i64_with_txn map_ref CREATED_AT).getD 0
        some
          ({ id := id, block_id := block_id, height := i64_as_i32 height },
            created_at)
  | _ => none

/-- The `DatabaseView` entity. -/
structure DatabaseView where
  id : String
  database_id : String
  name : String
  layout : DatabaseLayout
  layout_settings : LayoutSettings
  filters : List FilterMap
  group_settings : List GroupSettingMap
  sorts : List SortMap
  row_orders : List RowOrder
  field_orders : List DBFieldOrder
  field_settings : FieldSettingsByFieldIdMap
  created_at : Int
  modified_at : Int
  is_inline : Bool

/-- `CreateViewParams`. -/
structure CreateViewParams where
  database_id : String
  view_id : String
  name : String
  layout : DatabaseLayout
  layout_settings : LayoutSettings
  filters : List FilterMap
  group_settings : List GroupSettingMap
  sorts : List SortMap
  field_settings : FieldSettingsByFieldIdMap
  created_at : Int
  modified_at : Int
  deps_fields : List DBField
  deps_field_setting : List (List (DatabaseLayout × YMap))

/-- `DatabaseError` variants used by the validator. -/
inductive DatabaseError : Type where
  | InvalidDatabaseID : String → DatabaseError
  | InvalidViewID : String → DatabaseError
deriving DecidableEq, Repr

/-- `CreateViewParamsValidator::validate`: reject an empty database id,
then an empty view id, otherwise return the parameters unchanged. -/
def CreateViewParamsValidator.validate (params : CreateViewParams) :
    Except DatabaseError CreateViewParams :=
  if params.database_id = "" then
    .error (.InvalidDatabaseID "database_id is empty")
  else if params.view_id = "" then
    .error (.InvalidViewID "view_id is empty")
  else
    .ok params

/-! ### Database duplication (`CreateDatabaseParams::from_database_data`) -/

/-- `OrderObjectPosition` (modelled from the spec: insert position is
start, end, or relative to an id). -/
inductive OrderObjectPosition : Type where
  | Start
  | End
  | Before : String → OrderObjectPosition
  | After : String → OrderObjectPosition

/-- `CreateRowParams` (modelled from the spec and its use in
`from_database_data`: the row-creation parameter object). -/
structure CreateRowParams where
  id : RowId
  database_id : String
  created_at : Int
  modified_at : Int
  cells : Cells
  height : Int
  visibility : Bool
  row_position : OrderObjectPosition

/-- Modelled from the spec: `DatabaseData` is the full snapshot of one
database (its definition lives outside the provided sources): database
id, fields, rows, views. -/
structure DatabaseData where
  database_id : String
  fields : List DBField
  rows : List Row
  views : List DatabaseView

/-- `CreateDatabaseParams`. -/
structure CreateDatabaseParams where
  database_id : String
  fields : List DBField
  rows : List CreateRowParams
  views : List CreateViewParams

/-- The row map of `from_database_data`: each source row becomes a
`CreateRowParams` with a freshly generated row id (`gen_row_id()`,
modelled as the injective supply `gr` consumed at successive indices),
the new database id, the shared timestamp, and the row's cells, height
and visibility copied. -/
def rowsFromDatabaseData (gr : Nat → RowId) (database_id : String)
    (ts : Int) : Nat → List Row → List CreateRowParams
  | _, [] => []
  | c, row :: rest =>
    { id := gr c, database_id := database_id, created_at := ts,
      modified_at := ts, cells := row.cells, height := row.height,
      visibility := row.visibility, row_position := .End }
      :: rowsFromDatabaseData gr database_id ts (c + 1) rest

/-- The view-parameter record built for one source view. -/
def mkViewParams (database_id view_id : String) (ts : Int)
    (view : DatabaseView) : CreateViewParams :=
  { database_id := database_id, view_id := view_id, name := view.name,
    layout := view.layout, layout_settings := view.layout_settings,
    filters := view.filters, group_settings := view.group_settings,
    sorts := view.sorts, field_settings := view.field_settings,
    created_at := ts, modified_at := ts, deps_fields := [],
    deps_field_setting := [] }

/-- The view map of `from_database_data`: the view whose id equals the
designated `database_view_id` receives the caller-supplied
`new_database_view_id`; every other view receives a freshly generated id
(`gen_database_view_id()`, modelled as the supply `g` consumed at
successive indices). -/
def viewsFromDatabaseData (g : Nat → String)
    (database_id database_view_id new_database_view_id : String)
    (ts : Int) : Nat → List DatabaseView → List CreateViewParams
  | _, [] => []
  | c, view :: rest =>
    if view.id = database_view_id then
      mkViewParams database_id new_database_view_id ts view
        :: viewsFromDatabaseData g database_id database_view_id
          new_database_view_id ts c rest
    else
      mkViewParams database_id (g c) ts view
        :: viewsFromDatabaseData g database_id database_view_id
          new_database_view_id ts (c + 1) rest

/-- `CreateDatabaseParams::from_database_data`. The impure inputs are
explicit: `g` is the uuid supply behind `gen_database_id` /
`gen_database_view_id` (index 0 is the database id, indices 1.. the
fresh view ids), `gr` the supply behind `gen_row_id`, and `ts` the one
`timestamp()` call shared by every row and view. -/
def CreateDatabaseParams.from_database_data (g : Nat → String)
    (gr : Nat → RowId) (ts : Int) (data : DatabaseData)
    (database_view_id new_database_view_id : String) :
    CreateDatabaseParams :=
  let database_id := g 0
  { database_id := database_id,
    rows := rowsFromDatabaseData gr database_id ts 0 data.rows,
    fields := data.fields,
    views := viewsFromDatabaseData g database_id database_view_id
      new_database_view_id ts 1 data.views }

/-! ### History plugin (`collab/src/plugin/history.rs`) -/

/-- A raw encoded update delta (`Bytes`). -/
abbrev UpdateBytes := List Nat

/-- `CollabHistoryPlugin` state: the recorded deltas, in order. -/
abbrev CollabHistoryPlugin := List UpdateBytes

/-- `CollabHistoryPlugin::new` / `default`: an empty store. -/
def CollabHistoryPlugin.new : CollabHistoryPlugin := []

/-- `CollabPlugin::did_receive_new_update` for the history plugin:
push the raw delta at the end of the store. -/
def did_receive_new_update (s : CollabHistoryPlugin) (update : UpdateBytes) :
    CollabHistoryPlugin :=
  s ++ [update]

/-- `CollabHistoryPlugin::get_updates` (the replay): decode every stored
delta in insertion order through `decode_v1` (the substrate's decoder,
passed as a parameter), collecting the results; the `?` operator fails
the whole replay at the first delta that does not decode. -/
def get_updates {U E : Type} (decode_v1 : UpdateBytes → Except E U) :
    CollabHistoryPlugin → Except E (List U)
  | [] => .ok []
  | b :: rest =>
    match decode_v1 b with
    | .error e => .error e
    | .ok u =>
      match get_updates decode_v1 rest with
      | .error e => .error e
      | .ok us => .ok (u :: us)

/-! ### Sync plugin local-update callback
(`collab-plugins/src/sync_plugin/plugin.rs`) -/

/-- An outbound message as queued by `queue_msg` via
`ClientUpdateRequest::new(origin, object_id, msg_id, payload)`. -/
structure OutboundMessage where
  origin : String
  object_id : String
  msg_id : Nat
  payload : List Nat
deriving DecidableEq, Repr

/-- Modelled from the spec: the `SyncQueue` (outside the provided
sources) holds the next strictly increasing message id and the pending
outbound messages. -/
structure SyncQueue where
  next_msg_id : Nat
  pending : List OutboundMessage

/-- Modelled from the spec: `SyncQueue::queue_msg` allocates the next
strictly increasing message id, builds the message via the
caller-supplied function of that id, and appends it to the outbound
queue. -/
def SyncQueue.queue_msg (q : SyncQueue)
    (build : Nat → OutboundMessage) : SyncQueue :=
  { next_msg_id := q.next_msg_id + 1,
    pending := q.pending ++ [build q.next_msg_id] }

/-- `SyncPlugin::receive_local_update`: the spawned task upgrades the
weak reference to the sync queue (`weak_sync_queue.upgrade()`, modelled
as an `Option SyncQueue`: `none` is a torn-down queue). When the queue
is alive it encodes the update (`encode_v1`, the substrate's encoder,
passed as a parameter) and queues one `ClientUpdateRequest`; when it is
already gone the task does nothing. -/
def receive_local_update (encode_v1 : List Nat → List Nat)
    (queue : Option SyncQueue) (origin object_id : String)
    (update : List Nat) : Option SyncQueue :=
  match queue with
  | none => none
  | some sync_queue =>
    let payload := encode_v1 update
    some (sync_queue.queue_msg fun msg_id =>
      { origin := origin, object_id := object_id, msg_id := msg_id,
        payload := payload })

/-! ### Children map (`collab-document/src/blocks/children.rs`) -/

/-- The `ChildrenMap` root: an association map from children-list id to
an ordered array of child id strings. -/
abbrev ChildrenMapState := List (String × List String)

/-- Array lookup on the children root (`get_array_ref_with_txn`). -/
def getArrayRef (s : ChildrenMapState) (k : String) :
    Option (List String) :=
  match s with
  | [] => none
  | (k2, v) :: rest => if k2 = k then some v else getArrayRef rest k

/-- Array insert on the children root (`insert_array_with_txn`):
replaces the first binding of the key in place or appends a new one. -/
def insertArrayRef (s : ChildrenMapState) (k : String)
    (v : List String) : ChildrenMapState :=
  match s with
  | [] => [(k, v)]
  | (k2, v2) :: rest =>
    if k2 = k then (k2, v) :: rest else (k2, v2) :: insertArrayRef rest k v

/-- `ChildrenMap::create_children_with_txn`: insert an empty array under
the id. -/
def ChildrenMap.create_children_with_txn (s : ChildrenMapState)
    (children_id : String) : ChildrenMapState :=
  insertArrayRef s children_id []

/-- `ChildrenMap::get_children_with_txn`: return the existing array for
the id, or create an empty one (mutating the root) when it is absent;
yields the array's contents and the resulting root state. -/
def ChildrenMap.get_children_with_txn (s : ChildrenMapState)
    (children_id : String) : List String × ChildrenMapState :=
  match getArrayRef s children_id with
  | some l => (l, s)
  | none => ([], ChildrenMap.create_children_with_txn s children_id)

/-- `Iterator::position`: the index of the first element satisfying the
predicate. -/
def listPosition (p : String → Bool) : List String → Option Nat
  | [] => none
  | x :: t => if p x then some 0 else (listPosition p t).map (· + 1)

/-- `ChildrenMap::get_child_index_with_txn`: `none` when the array is
absent or empty, otherwise the position of the first child equal to
`child_id`. -/
def ChildrenMap.get_child_index_with_txn (s : ChildrenMapState)
    (children_id child_id : String) : Option Nat :=
  match getArrayRef s children_id with
  | none => none
  | some children_ref =>
    if children_ref.length = 0 then none
    else listPosition (fun child => child = child_id) children_ref

/-- `ChildrenMap::delete_child_with_txn`: fetch (or create) the
children array, look up the child's index, and remove it when found. -/
def ChildrenMap.delete_child_with_txn (s : ChildrenMapState)
    (children_id child_id : String) : ChildrenMapState :=
  let res := ChildrenMap.get_children_with_txn s children_id
  let index := ChildrenMap.get_child_index_with_txn res.2 children_id
    child_id
  match index with
  | some i => insertArrayRef res.2 children_id (res.1.eraseIdx i)
  | none => res.2

/-! ### Map lemmas -/

theorem mapGet_mapInsert_self (m : YMap) (k : String) (v : YrsOut) :
    mapGet (mapInsert m k v) k = some v := by
  induction m with
  | nil => simp [mapInsert, mapGet]
  | cons kv rest ih =>
    by_cases h : kv.1 = k
    · simp [mapInsert, mapGet, h]
    · simp [mapInsert, mapGet, h, ih]

theorem mapGet_mapInsert_other (m : YMap) (k k2 : String) (v : YrsOut)
    (h : k2 ≠ k) : mapGet (mapInsert m k v) k2 = mapGet m k2 := by
  have hne : k ≠ k2 := fun hh => h hh.symm
  induction m with
  | nil =>
    simp only [mapInsert, mapGet]
    rw [if_neg hne]
  | cons kv rest ih =>
    obtain ⟨k1, v1⟩ := kv
    by_cases hk : k1 = k
    · subst hk
      simp only [mapInsert, if_pos rfl, mapGet]
      rw [if_neg hne, if_neg hne]
    · simp only [mapInsert, if_neg hk, mapGet]
      by_cases hk2 : k1 = k2
      · rw [if_pos hk2, if_pos hk2]
      · rw [if_neg hk2, if_neg hk2, ih]

theorem mapInsert_of_not_mem (m : YMap) (k : String) (v : YrsOut)
    (h : ∀ kv ∈ m, kv.1 ≠ k) : mapInsert m k v = m ++ [(k, v)] := by
  induction m with
  | nil => simp [mapInsert]
  | cons kv rest ih =>
    have h1 : kv.1 ≠ k := h kv (by simp)
    simp only [mapInsert, if_neg h1, List.cons_append, List.cons.injEq,
      true_and]
    exact ih fun kv2 hkv2 => h kv2 (by simp [hkv2])

/-! ### C4: FieldType decoding -/

/-- C4: decoding a `FieldType` from an i64 discriminant maps 0..14 to
the corresponding variants in order, and every other value decodes to
`RichText` rather than producing an error. -/
theorem fieldType_from_i64_spec :
    (FieldType.fromI64 0 = .RichText ∧ FieldType.fromI64 1 = .Number ∧
      FieldType.fromI64 2 = .DateTime ∧
      FieldType.fromI64 3 = .SingleSelect ∧
      FieldType.fromI64 4 = .MultiSelect ∧
      FieldType.fromI64 5 = .Checkbox ∧ FieldType.fromI64 6 = .URL ∧
      FieldType.fromI64 7 = .Checklist ∧
      FieldType.fromI64 8 = .LastEditedTime ∧
      FieldType.fromI64 9 = .CreatedTime ∧
      FieldType.fromI64 10 = .Relation ∧
      FieldType.fromI64 11 = .Summary ∧
      FieldType.fromI64 12 = .Translate ∧
      FieldType.fromI64 13 = .Time ∧ FieldType.fromI64 14 = .Media) ∧
    ∀ index : Int, index < 0 ∨ 14 < index →
      FieldType.fromI64 index = .RichText := by
  constructor
  · refine ⟨rfl, rfl, rfl, rfl, rfl, rfl, rfl, rfl, rfl, rfl, rfl, rfl,
      rfl, rfl, rfl⟩
  · intro index h
    unfold FieldType.fromI64
    repeat rw [if_neg (by omega)]

/-- C4 witness: the unknown discriminant 99 decodes to `RichText`. -/
theorem fieldType_from_i64_spec_witness :
    FieldType.fromI64 99 = .RichText :=
  fieldType_from_i64_spec.2 99 (Or.inr (by norm_num))

/-! ### C6: CreateViewParams validation -/

/-- C6: validation fails with `InvalidDatabaseID` exactly when the
database id is empty, otherwise with `InvalidViewID` exactly when the
view id is empty, and otherwise returns the parameters unchanged; the
outcome depends on no other field. -/
theorem create_view_params_validate_spec (p : CreateViewParams) :
    ((∃ s, CreateViewParamsValidator.validate p =
        .error (.InvalidDatabaseID s)) ↔ p.database_id = "") ∧
    ((∃ s, CreateViewParamsValidator.validate p =
        .error (.InvalidViewID s)) ↔
      (p.database_id ≠ "" ∧ p.view_id = "")) ∧
    (CreateViewParamsValidator.validate p = .ok p ↔
      (p.database_id ≠ "" ∧ p.view_id ≠ "")) ∧
    (∀ q : CreateViewParams, q.database_id = p.database_id →
      q.view_id = p.view_id →
      ((CreateViewParamsValidator.validate p = .ok p ↔
          CreateViewParamsValidator.validate q = .ok q) ∧
        ∀ e, CreateViewParamsValidator.validate p = .error e ↔
          CreateViewParamsValidator.validate q = .error e)) := by
  have key : ∀ q : CreateViewParams, CreateViewParamsValidator.validate q
      = if q.database_id = "" then
          .error (.InvalidDatabaseID "database_id is empty")
        else if q.view_id = "" then
          .error (.InvalidViewID "view_id is empty")
        else .ok q := fun _ => rfl
  by_cases h1 : p.database_id = ""
  · refine ⟨by simp [key, h1], by simp [key, h1], by simp [key, h1], ?_⟩
    intro q hq1 hq2
    have hq : q.database_id = "" := by rw [hq1]; exact h1
    exact ⟨by simp [key, h1, hq], fun e => by simp [key, h1, hq]⟩
  · by_cases h2 : p.view_id = ""
    · refine ⟨by simp [key, h1, h2], by simp [key, h1, h2],
        by simp [key, h1, h2], ?_⟩
      intro q hq1 hq2
      have hq1' : ¬q.database_id = "" := by rw [hq1]; exact h1
      have hq2' : q.view_id = "" := by rw [hq2]; exact h2
      exact ⟨by simp [key, h1, h2, hq1', hq2'],
        fun e => by simp [key, h1, h2, hq1', hq2']⟩
    · refine ⟨by simp [key, h1, h2], by simp [key, h1, h2],
        by simp [key, h1, h2], ?_⟩
      intro q hq1 hq2
      have hq1' : ¬q.database_id = "" := by rw [hq1]; exact h1
      have hq2' : ¬q.view_id = "" := by rw [hq2]; exact h2
      exact ⟨by simp [key, h1, h2, hq1', hq2'],
        fun e => by simp [key, h1, h2, hq1', hq2']⟩

/-- A concrete parameter record used by witnesses. -/
def sampleViewParams (database_id view_id : String) : CreateViewParams :=
  { database_id := database_id, view_id := view_id, name := "n",
    layout := .Grid, layout_settings := [], filters := [],
    group_settings := [], sorts := [], field_settings := [],
    created_at := 0, modified_at := 0, deps_fields := [],
    deps_field_setting := [] }

/-- C6 witness: empty view id with a nonempty database id is rejected
with `InvalidViewID`, and fully populated ids validate unchanged. -/
theorem create_view_params_validate_spec_witness :
    (∃ s, CreateViewParamsValidator.validate (sampleViewParams "d" "") =
      .error (.InvalidViewID s)) ∧
    CreateViewParamsValidator.validate (sampleViewParams "d" "v") =
      .ok (sampleViewParams "d" "v") :=
  ⟨(create_view_params_validate_spec (sampleViewParams "d" "")).2.1.2
      ⟨by decide, rfl⟩,
    (create_view_params_validate_spec
      (sampleViewParams "d" "v")).2.2.1.2 ⟨by decide, by decide⟩⟩

/-! ### C2: row decoding with defaults -/

/-- C2: decoding a row map with its id and block id present yields
`some` row, defaulting a missing visibility key to `true`, a missing
height key to `60`, a missing created_at key to the current timestamp,
and a missing cells map to empty; a value whose backing map is absent
decodes to `none`. -/
theorem row_from_map_ref_spec (now : Int) (m : YMap) (i b : Int)
    (hid : get_i64_with_txn m ROW_ID = some i)
    (hbid : get_i64_with_txn m BLOCK_ID = some b) :
    (∃ r : Row, row_from_map_ref now m = some r ∧ r.id = i ∧
      r.block_id = b ∧
      (get_bool_with_txn m ROW_VISIBILITY = none → r.visibility = true) ∧
      (get_i64_with_txn m ROW_HEIGHT = none → r.height = 60) ∧
      (get_i64_with_txn m CREATED_AT = none → r.created_at = now) ∧
      (get_map_with_txn m ROW_CELLS = none → r.cells = [])) ∧
    ∀ v : YrsOut, (∀ mm : YMap, v ≠ .vMap mm) →
      row_from_value now v = none := by
  constructor
  · have hrow : row_from_map_ref now m = some
        { id := i, block_id := b,
          cells :=
            match get_map_with_txn m ROW_CELLS with
            | some cm => cells_from_map_ref cm
            | none => [],
          height := i64_as_i32 ((get_i64_with_txn m ROW_HEIGHT).getD 60),
          visibility := (get_bool_with_txn m ROW_VISIBILITY).getD true,
          created_at := (get_i64_with_txn m CREATED_AT).getD now } := by
      unfold row_from_map_ref
      rw [hid, hbid]
    refine ⟨_, hrow, rfl, rfl, ?_, ?_, ?_, ?_⟩
    · intro h
      simp only [h, Option.getD_none]
    · intro h
      simp only [h, Option.getD_none]
      norm_num [i64_as_i32]
    · intro h
      simp only [h, Option.getD_none]
    · intro h
      simp only [h]
  · intro v hv
    cases v with
    | vMap mm => exact absurd rfl (hv mm)
    | vBool b2 => rfl
    | vI64 n => rfl
    | vStr s => rfl

/-- C2 witness: a concrete row map holding only the id and block id
decodes with every default applied. -/
theorem row_from_map_ref_spec_witness :
    ∃ r : Row,
      row_from_map_ref 5 [(ROW_ID, .vI64 1), (BLOCK_ID, .vI64 2)] =
        some r ∧
      r.visibility = true ∧ r.height = 60 ∧ r.created_at = 5 ∧
      r.cells = [] := by
  obtain ⟨⟨r, hr, hi, hb, hv, hh, hc, hcells⟩, hnone⟩ :=
    row_from_map_ref_spec 5 [(ROW_ID, .vI64 1), (BLOCK_ID, .vI64 2)] 1 2
      rfl rfl
  exact ⟨r, hr, hv rfl, hh rfl, hc rfl, hcells rfl⟩

/-! ### C5: a missing cell reads as the empty default -/

/-- A three-field sample schema. -/
def sampleFields : List DBField :=
  [{ id := "f1", name := "text", field_type := .RichText },
    { id := "f2", name := "select", field_type := .SingleSelect },
    { id := "f3", name := "done", field_type := .Checkbox }]

/-- A row map whose cells map has entries only for fields f1 and f2. -/
def sampleCellsMap : YMap :=
  [("f1", .vMap [("data", .vStr "hello")]), ("f2", .vMap [])]

/-- The row map wrapping `sampleCellsMap`. -/
def sampleRowMap : YMap :=
  [(ROW_ID, .vI64 1), (BLOCK_ID, .vI64 1),
    (ROW_CELLS, .vMap sampleCellsMap)]

/-- C5: when a row's cells map lacks an entry for a field id, reading
that cell returns `none` — the default (empty) value of the optional
cell — and a decoded row's cell count need not equal the field count
(three fields, two cells). -/
theorem cell_from_map_ref_missing_spec (m : YMap) (field_id : String)
    (h : ∀ cm, get_map_with_txn m ROW_CELLS = some cm →
      get_map_with_txn cm field_id = none) :
    (cell_from_map_ref m field_id = none ∧
      cell_from_map_ref m field_id = (default : Option Cell)) ∧
    ∃ r : Row, row_from_map_ref 0 sampleRowMap = some r ∧
      sampleFields.length = 3 ∧ r.cells.length = 2 := by
  constructor
  · have hnone : cell_from_map_ref m field_id = none := by
      cases hcm : get_map_with_txn m ROW_CELLS with
      | none => simp only [cell_from_map_ref, hcm]
      | some cm => simp only [cell_from_map_ref, hcm, h cm hcm]
    exact ⟨hnone, hnone⟩
  · exact ⟨{ id := 1, block_id := 1,
             cells := [("f1", [("data", .vStr "hello")]), ("f2", [])],
             height := 60, visibility := true, created_at := 0 },
      rfl, rfl, rfl⟩

/-- C5 witness: reading field f3 of the sample row returns `none`. -/
theorem cell_from_map_ref_missing_spec_witness :
    cell_from_map_ref sampleRowMap "f3" = none := by
  refine (cell_from_map_ref_missing_spec sampleRowMap "f3" ?_).1.1
  intro cm hcm
  have h2 : some sampleCellsMap = some cm := by rw [← hcm]; rfl
  injection h2 with h3
  rw [← h3]
  rfl

/-! ### C8: row orders -/

/-- C8: `row_order_from_value` on a map holding an id and block id but
no height yields the row order `{row_id, block_id, height = 60}` (with
the separately returned created_at defaulting to 0) — the behaviour of
`row.rs`, which builds a three-field `RowOrder`; the `RowOrder` struct
in `views/row_order.rs` instead holds only `{id, created_at}` and
offers no such constructor. -/
theorem row_order_from_value_eval :
    row_order_from_value
      (.vMap [(ROW_ID, .vI64 1), (BLOCK_ID, .vI64 2)]) =
      some ({ id := 1, block_id := 2, height := 60 }, 0) ∧
    ∀ ro : RowOrder, ro = { id := ro.id, created_at := ro.created_at } :=
  ⟨rfl, fun _ => rfl⟩

/-! ### C9: local-update callback after queue teardown -/

/-- C9: `receive_local_update` upgrades its weak queue reference; when
the queue is already torn down (`none`) it enqueues nothing and leaves
all state unchanged, and when the queue is alive it appends exactly one
message carrying the next strictly increasing message id. -/
theorem receive_local_update_teardown_spec
    (encode_v1 : List Nat → List Nat) (origin object_id : String)
    (update : List Nat) :
    receive_local_update encode_v1 none origin object_id update = none ∧
    ∀ q : SyncQueue,
      receive_local_update encode_v1 (some q) origin object_id update =
        some { next_msg_id := q.next_msg_id + 1,
               pending := q.pending ++
                 [{ origin := origin, object_id := object_id,
                    msg_id := q.next_msg_id,
                    payload := encode_v1 update }] } :=
  ⟨rfl, fun _ => rfl⟩

/-! ### C7: history replay -/

theorem foldl_did_receive (acc : CollabHistoryPlugin)
    (deltas : List UpdateBytes) :
    List.foldl did_receive_new_update acc deltas = acc ++ deltas := by
  induction deltas generalizing acc with
  | nil => simp
  | cons b rest ih =>
    simp only [List.foldl_cons, did_receive_new_update, ih,
      List.append_assoc, List.singleton_append]

theorem get_updates_total_ok {U E : Type}
    (decode_v1 : UpdateBytes → Except E U) (deltas : List UpdateBytes)
    (hall : ∀ b ∈ deltas, ∃ u, decode_v1 b = .ok u) :
    ∃ us : List U, get_updates decode_v1 deltas = .ok us ∧
      us.length = deltas.length ∧
      ∀ i (hi : i < deltas.length) (hi2 : i < us.length),
        decode_v1 (deltas.get ⟨i, hi⟩) = .ok (us.get ⟨i, hi2⟩) := by
  induction deltas with
  | nil =>
    exact ⟨[], rfl, rfl, fun i hi => absurd hi (by simp)⟩
  | cons b rest ih =>
    obtain ⟨u, hu⟩ := hall b (List.mem_cons_self b rest)
    obtain ⟨us, hus, hlen, hdec⟩ :=
      ih fun b2 hb2 => hall b2 (List.mem_cons_of_mem b hb2)
    refine ⟨u :: us, ?_, by simp [hlen], ?_⟩
    · simp only [get_updates, hu, hus]
    · intro i hi hi2
      cases i with
      | zero => exact hu
      | succ n =>
        exact hdec n (by simpa using hi) (by simpa using hi2)

theorem get_updates_fail_fast {U E : Type}
    (decode_v1 : UpdateBytes → Except E U) (deltas : List UpdateBytes)
    (hbad : ∃ b ∈ deltas, ∃ e, decode_v1 b = .error e) :
    ∃ e, get_updates decode_v1 deltas = .error e := by
  induction deltas with
  | nil => simp at hbad
  | cons b rest ih =>
    cases hb : decode_v1 b with
    | error e => exact ⟨e, by simp only [get_updates, hb]⟩
    | ok u =>
      obtain ⟨b2, hb2, e2, he2⟩ := hbad
      rcases List.mem_cons.mp hb2 with h | h
      · subst h
        rw [hb] at he2
        exact absurd he2 (by simp)
      · obtain ⟨e3, he3⟩ := ih ⟨b2, h, e2, he2⟩
        exact ⟨e3, by simp only [get_updates, hb, he3]⟩

/-- C7: recording appends deltas in order; replay decodes the recorded
deltas in insertion order into an ordered sequence when they all
decode, and fails the whole replay (yielding no partial sequence) as
soon as any single delta fails to decode. -/
theorem history_replay_spec {U E : Type}
    (decode_v1 : UpdateBytes → Except E U) (deltas : List UpdateBytes) :
    (List.foldl did_receive_new_update CollabHistoryPlugin.new deltas =
      deltas) ∧
    ((∀ b ∈ deltas, ∃ u, decode_v1 b = .ok u) →
      ∃ us : List U, get_updates decode_v1 deltas = .ok us ∧
        us.length = deltas.length ∧
        ∀ i (hi : i < deltas.length) (hi2 : i < us.length),
          decode_v1 (deltas.get ⟨i, hi⟩) = .ok (us.get ⟨i, hi2⟩)) ∧
    ((∃ b ∈ deltas, ∃ e, decode_v1 b = .error e) →
      ∃ e, get_updates decode_v1 deltas = .error e) := by
  refine ⟨?_, get_updates_total_ok decode_v1 deltas,
    get_updates_fail_fast decode_v1 deltas⟩
  rw [foldl_did_receive]
  simp [CollabHistoryPlugin.new]

/-- C7 witness: with a decoder that always succeeds with the delta's
length, replaying two recorded deltas yields the decoded sequence. -/
theorem history_replay_spec_witness :
    ∃ us : List Nat,
      get_updates (fun b : UpdateBytes => (.ok b.length : Except String Nat))
        [[7], [8, 9]] = .ok us ∧ us.length = 2 := by
  obtain ⟨us, h1, h2, h3⟩ :=
    (history_replay_spec (fun b : UpdateBytes =>
      (.ok b.length : Except String Nat)) [[7], [8, 9]]).2.1
      (fun b hb => ⟨b.length, rfl⟩)
  exact ⟨us, h1, by rw [h2]; rfl⟩

/-! ### C3: builder round-trip -/

theorem get_i64_buildRowMap_id (id bid : Int) (ov : Option Bool)
    (oh : Option Int) (oc : Option Int) (ocells : Option Cells) :
    get_i64_with_txn (buildRowMap id bid ov oh oc ocells) ROW_ID =
      some id := by
  rcases ov with _ | b <;> rcases oh with _ | h <;>
    rcases oc with _ | t <;> rcases ocells with _ | cs <;>
    simp [buildRowMap, RowBuilder.new, RowUpdate.set_visibility,
      RowUpdate.set_height, RowUpdate.set_created_at, RowUpdate.set_cells,
      get_i64_with_txn, get_map_with_txn, mapGet, mapGet_mapInsert_self,
      mapGet_mapInsert_other, ROW_ID, BLOCK_ID, ROW_VISIBILITY,
      ROW_HEIGHT, CREATED_AT, ROW_CELLS]

theorem get_i64_buildRowMap_bid (id bid : Int) (ov : Option Bool)
    (oh : Option Int) (oc : Option Int) (ocells : Option Cells) :
    get_i64_with_txn (buildRowMap id bid ov oh oc ocells) BLOCK_ID =
      some bid := by
  rcases ov with _ | b <;> rcases oh with _ | h <;>
    rcases oc with _ | t <;> rcases ocells with _ | cs <;>
    simp [buildRowMap, RowBuilder.new, RowUpdate.set_visibility,
      RowUpdate.set_height, RowUpdate.set_created_at, RowUpdate.set_cells,
      get_i64_with_txn, get_map_with_txn, mapGet, mapGet_mapInsert_self,
      mapGet_mapInsert_other, ROW_ID, BLOCK_ID, ROW_VISIBILITY,
      ROW_HEIGHT, CREATED_AT, ROW_CELLS]

theorem get_bool_buildRowMap_vis (id bid : Int) (ov : Option Bool)
    (oh : Option Int) (oc : Option Int) (ocells : Option Cells) :
    get_bool_with_txn (buildRowMap id bid ov oh oc ocells)
      ROW_VISIBILITY = ov := by
  rcases ov with _ | b <;> rcases oh with _ | h <;>
    rcases oc with _ | t <;> rcases ocells with _ | cs <;>
    simp [buildRowMap, RowBuilder.new, RowUpdate.set_visibility,
      RowUpdate.set_height, RowUpdate.set_created_at, RowUpdate.set_cells,
      get_i64_with_txn, get_bool_with_txn, get_map_with_txn, mapGet,
      mapGet_mapInsert_self, mapGet_mapInsert_other, ROW_ID, BLOCK_ID,
      ROW_VISIBILITY, ROW_HEIGHT, CREATED_AT, ROW_CELLS]

theorem get_i64_buildRowMap_height (id bid : Int) (ov : Option Bool)
    (oh : Option Int) (oc : Option Int) (ocells : Option Cells) :
    get_i64_with_txn (buildRowMap id bid ov oh oc ocells) ROW_HEIGHT =
      oh := by
  rcases ov with _ | b <;> rcases oh with _ | h <;>
    rcases oc with _ | t <;> rcases ocells with _ | cs <;>
    simp [buildRowMap, RowBuilder.new, RowUpdate.set_visibility,
      RowUpdate.set_height, RowUpdate.set_created_at, RowUpdate.set_cells,
      get_i64_with_txn, get_map_with_txn, mapGet, mapGet_mapInsert_self,
      mapGet_mapInsert_other, ROW_ID, BLOCK_ID, ROW_VISIBILITY,
      ROW_HEIGHT, CREATED_AT, ROW_CELLS]

theorem get_i64_buildRowMap_created (id bid : Int) (ov : Option Bool)
    (oh : Option Int) (oc : Option Int) (ocells : Option Cells) :
    get_i64_with_txn (buildRowMap id bid ov oh oc ocells) CREATED_AT =
      oc := by
  rcases ov with _ | b <;> rcases oh with _ | h <;>
    rcases oc with _ | t <;> rcases ocells with _ | cs <;>
    simp [buildRowMap, RowBuilder.new, RowUpdate.set_visibility,
      RowUpdate.set_height, RowUpdate.set_created_at, RowUpdate.set_cells,
      get_i64_with_txn, get_map_with_txn, mapGet, mapGet_mapInsert_self,
      mapGet_mapInsert_other, ROW_ID, BLOCK_ID, ROW_VISIBILITY,
      ROW_HEIGHT, CREATED_AT, ROW_CELLS]

theorem get_map_buildRowMap_cells (id bid : Int) (ov : Option Bool)
    (oh : Option Int) (oc : Option Int) (ocells : Option Cells) :
    get_map_with_txn (buildRowMap id bid ov oh oc ocells) ROW_CELLS =
      ocells.map fun cs => Cells.fill_map_ref [] cs := by
  rcases ov with _ | b <;> rcases oh with _ | h <;>
    rcases oc with _ | t <;> rcases ocells with _ | cs <;>
    simp [buildRowMap, RowBuilder.new, RowUpdate.set_visibility,
      RowUpdate.set_height, RowUpdate.set_created_at, RowUpdate.set_cells,
      get_i64_with_txn, get_map_with_txn, mapGet, mapGet_mapInsert_self,
      mapGet_mapInsert_other, ROW_ID, BLOCK_ID, ROW_VISIBILITY,
      ROW_HEIGHT, CREATED_AT, ROW_CELLS]

theorem fill_map_ref_append (cells : Cells) :
    ∀ acc : YMap, (∀ kv ∈ cells, ∀ kv2 ∈ acc, kv.1 ≠ kv2.1) →
    ((cells.map Prod.fst).Nodup) →
    Cells.fill_map_ref acc cells =
      acc ++ cells.map fun kv => (kv.1, YrsOut.vMap kv.2) := by
  induction cells with
  | nil => intro acc hdisj hnd; simp [Cells.fill_map_ref]
  | cons kv rest ih =>
    intro acc hdisj hnd
    have hins : mapInsert acc kv.1 (.vMap kv.2) =
        acc ++ [(kv.1, .vMap kv.2)] :=
      mapInsert_of_not_mem acc kv.1 _ fun kv2 hkv2 =>
        (hdisj kv (List.mem_cons_self kv rest) kv2 hkv2).symm
    have hnd2 : ((rest.map Prod.fst).Nodup) :=
      (List.nodup_cons.mp (by simpa using hnd)).2
    have hhead : kv.1 ∉ rest.map Prod.fst :=
      (List.nodup_cons.mp (by simpa using hnd)).1
    have step : Cells.fill_map_ref acc (kv :: rest) =
        Cells.fill_map_ref (acc ++ [(kv.1, .vMap kv.2)]) rest := by
      simp only [Cells.fill_map_ref, List.foldl_cons, hins]
    have hdisj2 : ∀ kv3 ∈ rest, ∀ kv2 ∈ acc ++ [(kv.1, YrsOut.vMap kv.2)],
        kv3.1 ≠ kv2.1 := by
      intro kv3 hkv3 kv2 hkv2
      rcases List.mem_append.mp hkv2 with h2 | h2
      · exact hdisj kv3 (List.mem_cons_of_mem kv hkv3) kv2 h2
      · have heq2 : kv2 = (kv.1, YrsOut.vMap kv.2) := by simpa using h2
        rw [heq2]
        intro hcontra
        exact hhead (hcontra ▸ List.mem_map_of_mem Prod.fst hkv3)
    rw [step, ih (acc ++ [(kv.1, YrsOut.vMap kv.2)]) hdisj2 hnd2]
    simp

theorem cells_from_map_ref_of_map (cells : Cells) :
    cells_from_map_ref (cells.map fun kv => (kv.1, YrsOut.vMap kv.2)) =
      cells := by
  induction cells with
  | nil => rfl
  | cons kv rest ih =>
    simp only [List.map_cons, cells_from_map_ref, List.filterMap_cons]
    simpa [cells_from_map_ref] using ih

theorem i64_as_i32_eq_self (n : Int) (h1 : -2147483648 ≤ n)
    (h2 : n < 2147483648) : i64_as_i32 n = n := by
  have hrw : i64_as_i32 n = (n + 2147483648) % 4294967296 - 2147483648 :=
    by norm_num [i64_as_i32]
  rw [hrw]
  omega

/-- C3: decoding a row map written through the builder returns the row
that was written, with the defaults (height 60, visibility true,
created_at read time, empty cells) applied for every setter that was
skipped: `decode(encode(row)) == row` for all field combinations. -/
theorem row_roundtrip_spec (now : Int) (id bid : Int) (ov : Option Bool)
    (oh : Option Int) (oc : Option Int) (ocells : Option Cells)
    (hnd : ((ocells.getD []).map Prod.fst).Nodup)
    (hh : ∀ h2 ∈ oh, -2147483648 ≤ h2 ∧ h2 < 2147483648) :
    row_from_map_ref now (buildRowMap id bid ov oh oc ocells) =
      some { id := id, block_id := bid, cells := ocells.getD [],
             height := oh.getD 60, visibility := ov.getD true,
             created_at := oc.getD now } := by
  unfold row_from_map_ref
  rw [get_i64_buildRowMap_id, get_i64_buildRowMap_bid,
    get_bool_buildRowMap_vis, get_i64_buildRowMap_height,
    get_i64_buildRowMap_created, get_map_buildRowMap_cells]
  have hheight : i64_as_i32 (oh.getD 60) = oh.getD 60 := by
    cases oh with
    | none => norm_num [i64_as_i32]
    | some h2 =>
      obtain ⟨ha, hb⟩ := hh h2 rfl
      exact i64_as_i32_eq_self h2 ha hb
  have hcells :
      (match (ocells.map fun cs => Cells.fill_map_ref [] cs :
          Option YMap) with
        | some cm => cells_from_map_ref cm
        | none => []) = ocells.getD [] := by
    cases ocells with
    | none => rfl
    | some cs =>
      show cells_from_map_ref (Cells.fill_map_ref [] cs) = cs
      rw [fill_map_ref_append cs [] (by simp) (by simpa using hnd)]
      simpa using cells_from_map_ref_of_map cs
  simp only [hheight, hcells]

/-- C3 witness: a concrete build with visibility and height set and
created_at and cells left out decodes back to the written row with the
remaining defaults applied. -/
theorem row_roundtrip_spec_witness :
    row_from_map_ref 0
      (buildRowMap 1 2 (some false) (some 100) none
        (some [("f1", [])])) =
      some { id := 1, block_id := 2, cells := [("f1", [])],
             height := 100, visibility := false, created_at := 0 } := by
  have h := row_roundtrip_spec 0 1 2 (some false) (some 100) none
    (some [("f1", [])]) (by simp)
    (by intro x hx; injection hx with h2; subst h2; constructor <;> decide)
  exact h

/-! ### C10: children map delete -/

theorem getArrayRef_insertArrayRef_self (s : ChildrenMapState)
    (k : String) (v : List String) :
    getArrayRef (insertArrayRef s k v) k = some v := by
  induction s with
  | nil => simp [insertArrayRef, getArrayRef]
  | cons kv rest ih =>
    by_cases h : kv.1 = k
    · simp [insertArrayRef, getArrayRef, h]
    · simp [insertArrayRef, getArrayRef, h, ih]

theorem getArrayRef_insertArrayRef_other (s : ChildrenMapState)
    (k k2 : String) (v : List String) (h : k2 ≠ k) :
    getArrayRef (insertArrayRef s k v) k2 = getArrayRef s k2 := by
  have hne : k ≠ k2 := fun hh => h hh.symm
  induction s with
  | nil =>
    simp only [insertArrayRef, getArrayRef]
    rw [if_neg hne]
  | cons kv rest ih =>
    obtain ⟨k1, v1⟩ := kv
    by_cases hk : k1 = k
    · subst hk
      simp only [insertArrayRef, if_pos rfl, getArrayRef]
      rw [if_neg hne, if_neg hne]
    · simp only [insertArrayRef, if_neg hk, getArrayRef]
      by_cases hk2 : k1 = k2
      · rw [if_pos hk2, if_pos hk2]
      · rw [if_neg hk2, if_neg hk2, ih]

theorem findIdx_none_of_not_mem (l : List String) (a : String)
    (h : a ∉ l) : listPosition (fun c => c = a) l = none := by
  induction l with
  | nil => rfl
  | cons b t ih =>
    have hb : ¬(b = a) := fun hh => h (hh ▸ List.mem_cons_self b t)
    have ht := ih fun hm => h (List.mem_cons_of_mem b hm)
    simp [listPosition, hb, ht]

theorem findIdx_erase_of_mem (l : List String) (a : String)
    (h : a ∈ l) : ∃ i, listPosition (fun c => c = a) l = some i ∧
      l.eraseIdx i = l.erase a := by
  induction l with
  | nil => simp at h
  | cons b t ih =>
    by_cases hb : b = a
    · refine ⟨0, ?_, ?_⟩
      · simp [listPosition, hb]
      · simp [List.eraseIdx, List.erase_cons, hb]
    · have hmem : a ∈ t := by
        rcases List.mem_cons.mp h with h2 | h2
        · exact absurd h2.symm hb
        · exact h2
      obtain ⟨i, hi, he⟩ := ih hmem
      refine ⟨i + 1, ?_, ?_⟩
      · simp [listPosition, hb, hi]
      · simp [List.eraseIdx, List.erase_cons, hb, he]

/-- C10: `delete_child_with_txn` removes the first occurrence of the
child when the children list exists and contains it, leaving every
other key untouched; it is the identity when the list exists but does
not contain the child; and when the list does not exist at all it
creates a new empty children list under the id — a side effect — rather
than being a pure no-op. -/
theorem delete_child_with_txn_spec (s : ChildrenMapState)
    (children_id child_id : String) :
    (∀ l, getArrayRef s children_id = some l → child_id ∈ l →
      getArrayRef
          (ChildrenMap.delete_child_with_txn s children_id child_id)
          children_id = some (l.erase child_id) ∧
        ∀ k, k ≠ children_id →
          getArrayRef
            (ChildrenMap.delete_child_with_txn s children_id child_id)
            k = getArrayRef s k) ∧
    (∀ l, getArrayRef s children_id = some l → child_id ∉ l →
      ChildrenMap.delete_child_with_txn s children_id child_id = s) ∧
    (getArrayRef s children_id = none →
      ChildrenMap.delete_child_with_txn s children_id child_id =
          insertArrayRef s children_id [] ∧
        getArrayRef
          (ChildrenMap.delete_child_with_txn s children_id child_id)
          children_id = some [] ∧
        ChildrenMap.delete_child_with_txn s children_id child_id ≠ s) := by
  refine ⟨?_, ?_, ?_⟩
  · intro l hl hmem
    have hgc : ChildrenMap.get_children_with_txn s children_id =
        (l, s) := by
      simp only [ChildrenMap.get_children_with_txn, hl]
    obtain ⟨i, hi, he⟩ := findIdx_erase_of_mem l child_id hmem
    have hlen : ¬(l.length = 0) := by
      cases l with
      | nil => simp at hmem
      | cons b t => simp
    have hidx : ChildrenMap.get_child_index_with_txn s children_id
        child_id = some i := by
      simp only [ChildrenMap.get_child_index_with_txn, hl, hlen,
        if_false, hi]
    have hdel : ChildrenMap.delete_child_with_txn s children_id
        child_id = insertArrayRef s children_id (l.erase child_id) := by
      simp only [ChildrenMap.delete_child_with_txn, hgc, hidx, he]
    rw [hdel]
    exact ⟨getArrayRef_insertArrayRef_self s children_id _,
      fun k hk => getArrayRef_insertArrayRef_other s children_id k _ hk⟩
  · intro l hl hnm
    have hgc : ChildrenMap.get_children_with_txn s children_id =
        (l, s) := by
      simp only [ChildrenMap.get_children_with_txn, hl]
    have hidx : ChildrenMap.get_child_index_with_txn s children_id
        child_id = none := by
      simp only [ChildrenMap.get_child_index_with_txn, hl]
      by_cases h0 : l.length = 0
      · simp [h0]
      · simp [h0, findIdx_none_of_not_mem l child_id hnm]
    simp only [ChildrenMap.delete_child_with_txn, hgc, hidx]
  · intro hnone
    have hgc : ChildrenMap.get_children_with_txn s children_id =
        ([], insertArrayRef s children_id []) := by
      simp only [ChildrenMap.get_children_with_txn, hnone,
        ChildrenMap.create_children_with_txn]
    have hs1 : getArrayRef (insertArrayRef s children_id []) children_id
        = some [] := getArrayRef_insertArrayRef_self s children_id []
    have hidx : ChildrenMap.get_child_index_with_txn
        (insertArrayRef s children_id []) children_id child_id = none := by
      simp only [ChildrenMap.get_child_index_with_txn, hs1]
      simp
    have hdel : ChildrenMap.delete_child_with_txn s children_id
        child_id = insertArrayRef s children_id [] := by
      simp only [ChildrenMap.delete_child_with_txn, hgc, hidx]
    refine ⟨hdel, by rw [hdel]; exact hs1, ?_⟩
    intro heq
    have h2 : getArrayRef s children_id = some [] := by
      rw [← heq, hdel]
      exact hs1
    rw [hnone] at h2
    exact absurd h2 (by simp)

/-- C10 witness: deleting child a from list c1 = [a, b, a] removes only
the first occurrence, and deleting from a missing list c2 creates an
empty list under c2. -/
theorem delete_child_with_txn_spec_witness :
    getArrayRef
      (ChildrenMap.delete_child_with_txn [("c1", ["a", "b", "a"])] "c1"
        "a") "c1" = some ["b", "a"] ∧
    getArrayRef
      (ChildrenMap.delete_child_with_txn [("c1", ["a", "b", "a"])] "c2"
        "a") "c2" = some [] := by
  constructor
  · have h := (delete_child_with_txn_spec [("c1", ["a", "b", "a"])] "c1"
      "a").1 ["a", "b", "a"] (by decide) (by decide)
    exact h.1.trans (by decide)
  · exact ((delete_child_with_txn_spec [("c1", ["a", "b", "a"])] "c2"
      "a").2.2 (by decide)).2.1

/-! ### C1: database duplication -/

/-- The row-parameter record built by `from_database_data` for one
source row, with `n` the index into the fresh-row-id supply. -/
def mkDupRowParams (gr : Nat → RowId) (database_id : String) (ts : Int)
    (n : Nat) (row : Row) : CreateRowParams :=
  { id := gr n, database_id := database_id, created_at := ts,
    modified_at := ts, cells := row.cells, height := row.height,
    visibility := row.visibility, row_position := .End }

theorem rowsFromDatabaseData_length (gr : Nat → RowId) (dbid : String)
    (ts : Int) : ∀ (l : List Row) (c : Nat),
    (rowsFromDatabaseData gr dbid ts c l).length = l.length := by
  intro l
  induction l with
  | nil => intro c; rfl
  | cons row rest ih =>
    intro c
    simp [rowsFromDatabaseData, ih (c + 1)]

theorem rowsFromDatabaseData_get (gr : Nat → RowId) (dbid : String)
    (ts : Int) : ∀ (l : List Row) (c i : Nat),
    (rowsFromDatabaseData gr dbid ts c l)[i]? =
      (l[i]?).map fun row => mkDupRowParams gr dbid ts (c + i) row := by
  intro l
  induction l with
  | nil => intro c i; simp [rowsFromDatabaseData]
  | cons row rest ih =>
    intro c i
    cases i with
    | zero => simp [rowsFromDatabaseData, mkDupRowParams]
    | succ n =>
      have h2 : c + (n + 1) = c + 1 + n := by omega
      simp only [rowsFromDatabaseData, List.getElem?_cons_succ,
        ih (c + 1) n, h2]

theorem rowsFromDatabaseData_map_id (gr : Nat → RowId) (dbid : String)
    (ts : Int) : ∀ (l : List Row) (c : Nat),
    ((rowsFromDatabaseData gr dbid ts c l).map fun p => p.id) =
      (List.range' c l.length).map gr := by
  intro l
  induction l with
  | nil => intro c; rfl
  | cons row rest ih =>
    intro c
    simp only [rowsFromDatabaseData, List.map_cons, List.length_cons,
      List.range'_succ, ih (c + 1)]

/-- The number of views of a list that do not match the designated
view id, i.e. the number of freshly generated view ids consumed. -/
def viewGenCount (database_view_id : String) :
    List DatabaseView → Nat
  | [] => 0
  | v :: rest =>
    (if v.id = database_view_id then 0 else 1) +
      viewGenCount database_view_id rest

theorem viewsFromDatabaseData_length (g : Nat → String)
    (dbid dvid ndvid : String) (ts : Int) :
    ∀ (l : List DatabaseView) (c : Nat),
    (viewsFromDatabaseData g dbid dvid ndvid ts c l).length =
      l.length := by
  intro l
  induction l with
  | nil => intro c; rfl
  | cons v rest ih =>
    intro c
    by_cases h : v.id = dvid <;>
      simp [viewsFromDatabaseData, h, ih c, ih (c + 1)]

theorem viewsFromDatabaseData_get (g : Nat → String)
    (dbid dvid ndvid : String) (ts : Int) :
    ∀ (l : List DatabaseView) (c i : Nat),
    (viewsFromDatabaseData g dbid dvid ndvid ts c l)[i]? =
      (l[i]?).map fun v =>
        mkViewParams dbid
          (if v.id = dvid then ndvid
            else g (c + viewGenCount dvid (l.take i))) ts v := by
  intro l
  induction l with
  | nil => intro c i; simp [viewsFromDatabaseData]
  | cons v rest ih =>
    intro c i
    by_cases hv : v.id = dvid
    · cases i with
      | zero => simp [viewsFromDatabaseData, hv]
      | succ n =>
        simp only [viewsFromDatabaseData, if_pos hv,
          List.getElem?_cons_succ, ih c n, List.take_succ_cons,
          viewGenCount, if_pos hv, Nat.zero_add]
    · cases i with
      | zero => simp [viewsFromDatabaseData, hv, viewGenCount]
      | succ n =>
        have harith : c + (1 + viewGenCount dvid (rest.take n)) =
            c + 1 + viewGenCount dvid (rest.take n) := by omega
        simp only [viewsFromDatabaseData, if_neg hv,
          List.getElem?_cons_succ, ih (c + 1) n, List.take_succ_cons,
          viewGenCount, if_neg hv]
        rw [← harith]

theorem viewGenCount_take_lt (dvid : String) :
    ∀ (l : List DatabaseView) (i j : Nat), i < j →
    ∀ sv, l[i]? = some sv → sv.id ≠ dvid →
    viewGenCount dvid (l.take i) < viewGenCount dvid (l.take j) := by
  intro l
  induction l with
  | nil =>
    intro i j hij sv hsv
    simp at hsv
  | cons v rest ih =>
    intro i j hij sv hsv hne
    cases i with
    | zero =>
      cases j with
      | zero => exact absurd hij (by omega)
      | succ m =>
        have hv : v = sv := by simpa using hsv
        subst hv
        simp only [List.take_zero, List.take_succ_cons, viewGenCount,
          if_neg hne]
        omega
    | succ n =>
      cases j with
      | zero => exact absurd hij (by omega)
      | succ m =>
        have h2 := ih n m (by omega) sv (by simpa using hsv) hne
        simp only [List.take_succ_cons, viewGenCount]
        by_cases hvd : v.id = dvid <;> simp [hvd] <;> omega

/-- C1: `from_database_data` returns parameters with a fresh database
id distinct from the source's; the same number of rows, fields and
views; the field list and every row's cells copied unchanged; fresh,
pairwise distinct row ids; one shared timestamp as created_at and
modified_at on every row and view; the caller-supplied target id for
exactly the views matching the designated view id; and a fresh,
pairwise distinct generated id for every other view. -/
theorem from_database_data_spec (g : Nat → String) (gr : Nat → RowId)
    (ts : Int) (data : DatabaseData)
    (database_view_id new_database_view_id : String)
    (hg : Function.Injective g)
    (hgdb : ∀ n, g n ≠ data.database_id)
    (hgv : ∀ n, ∀ v ∈ data.views, g n ≠ v.id)
    (hgnd : ∀ n, g n ≠ new_database_view_id)
    (hgr : Function.Injective gr)
    (hgrold : ∀ n, ∀ r ∈ data.rows, gr n ≠ r.id) :
    let res := CreateDatabaseParams.from_database_data g gr ts data
      database_view_id new_database_view_id
    (res.database_id ≠ data.database_id) ∧
    (res.rows.length = data.rows.length ∧ res.fields = data.fields ∧
      res.views.length = data.views.length) ∧
    ((res.rows.map fun p => p.id).Nodup ∧
      ∀ p ∈ res.rows, ∀ r ∈ data.rows, p.id ≠ r.id) ∧
    (∀ i : Nat, ((res.rows[i]?).map fun p => p.cells) =
      (data.rows[i]?).map fun r => r.cells) ∧
    (∀ p ∈ res.rows, p.created_at = ts ∧ p.modified_at = ts) ∧
    (∀ v ∈ res.views, v.created_at = ts ∧ v.modified_at = ts) ∧
    (∀ i : Nat, ∀ sv rv, data.views[i]? = some sv →
      res.views[i]? = some rv →
      (rv.view_id = new_database_view_id ↔ sv.id = database_view_id) ∧
      (sv.id ≠ database_view_id → (∃ n, rv.view_id = g n) ∧
        ∀ v2 ∈ data.views, rv.view_id ≠ v2.id)) ∧
    (∀ i j : Nat, i ≠ j → ∀ svi svj rvi rvj,
      data.views[i]? = some svi → data.views[j]? = some svj →
      res.views[i]? = some rvi → res.views[j]? = some rvj →
      svi.id ≠ database_view_id → svj.id ≠ database_view_id →
      rvi.view_id ≠ rvj.view_id) := by
  intro res
  have hrows : res.rows =
      rowsFromDatabaseData gr (g 0) ts 0 data.rows := rfl
  have hviews : res.views = viewsFromDatabaseData g (g 0)
      database_view_id new_database_view_id ts 1 data.views := rfl
  have hview_id : ∀ i : Nat, ∀ sv rv, data.views[i]? = some sv →
      res.views[i]? = some rv →
      rv.view_id = if sv.id = database_view_id then new_database_view_id
        else g (1 + viewGenCount database_view_id
          (data.views.take i)) := by
    intro i sv rv hsv hrv
    rw [hviews, viewsFromDatabaseData_get, hsv] at hrv
    simp only [Option.map_some'] at hrv
    injection hrv with hrv2
    rw [← hrv2]
    by_cases h : sv.id = database_view_id <;>
      simp [mkViewParams, h]
  refine ⟨hgdb 0, ⟨?_, rfl, ?_⟩, ⟨?_, ?_⟩, ?_, ?_, ?_, ?_, ?_⟩
  · rw [hrows, rowsFromDatabaseData_length]
  · rw [hviews, viewsFromDatabaseData_length]
  · rw [hrows, rowsFromDatabaseData_map_id]
    exact (List.nodup_range' 0 data.rows.length).map hgr
  · intro p hp r hr
    have hmem : p.id ∈ res.rows.map fun q => q.id :=
      List.mem_map_of_mem _ hp
    rw [hrows, rowsFromDatabaseData_map_id] at hmem
    obtain ⟨n, hn1, hn2⟩ := List.mem_map.mp hmem
    rw [← hn2]
    exact hgrold n r hr
  · intro i
    rw [hrows, rowsFromDatabaseData_get]
    cases h : data.rows[i]? <;> simp [h, mkDupRowParams]
  · intro p hp
    obtain ⟨i, hi⟩ := List.mem_iff_getElem?.mp hp
    rw [hrows, rowsFromDatabaseData_get] at hi
    cases h : data.rows[i]? with
    | none => rw [h] at hi; simp at hi
    | some row =>
      rw [h] at hi
      simp only [Option.map_some'] at hi
      injection hi with hi2
      rw [← hi2]
      exact ⟨rfl, rfl⟩
  · intro v hv
    obtain ⟨i, hi⟩ := List.mem_iff_getElem?.mp hv
    rw [hviews, viewsFromDatabaseData_get] at hi
    cases h : data.views[i]? with
    | none => rw [h] at hi; simp at hi
    | some sv =>
      rw [h] at hi
      simp only [Option.map_some'] at hi
      injection hi with hi2
      rw [← hi2]
      exact ⟨rfl, rfl⟩
  · intro i sv rv hsv hrv
    have hval := hview_id i sv rv hsv hrv
    by_cases h : sv.id = database_view_id
    · rw [if_pos h] at hval
      exact ⟨⟨fun _ => h, fun _ => hval⟩,
        fun hcontra => absurd h hcontra⟩
    · rw [if_neg h] at hval
      refine ⟨⟨fun heq => absurd (hval ▸ heq) (hgnd _),
        fun hcontra => absurd hcontra h⟩, fun _ => ⟨⟨_, hval⟩, ?_⟩⟩
      intro v2 hv2
      rw [hval]
      exact hgv _ v2 hv2
  · intro i j hij svi svj rvi rvj hsvi hsvj hrvi hrvj hnei hnej
    have hvi := hview_id i svi rvi hsvi hrvi
    have hvj := hview_id j svj rvj hsvj hrvj
    rw [if_neg hnei] at hvi
    rw [if_neg hnej] at hvj
    intro heq
    rw [hvi, hvj] at heq
    have hcount := hg heq
    rcases Nat.lt_or_ge i j with hlt | hge
    · have := viewGenCount_take_lt database_view_id data.views i j hlt
        svi hsvi hnei
      omega
    · have hlt2 : j < i := by omega
      have := viewGenCount_take_lt database_view_id data.views j i hlt2
        svj hsvj hnej
      omega

/-- A concrete fresh-id supply: the n-th id is the string of n copies
of the character a. -/
def genA (n : Nat) : String := String.mk (List.replicate n 'a')

theorem genA_injective : Function.Injective genA := by
  intro a b h
  have h2 : (List.replicate a 'a').length =
      (List.replicate b 'a').length := by
    have h3 := congrArg String.data h
    simp only [genA] at h3
    rw [h3]
  simpa using h2

theorem genA_ne_of_mem_b (s : String) (hb : 'b' ∈ s.data) (n : Nat) :
    genA n ≠ s := by
  intro h
  have h2 : s.data = List.replicate n 'a' := by rw [← h]; rfl
  rw [h2] at hb
  have h3 := List.eq_of_mem_replicate hb
  exact absurd h3 (by decide)

/-- A concrete database view used by the duplication witness. -/
def sampleView (id : String) : DatabaseView :=
  { id := id, database_id := "b1", name := "view", layout := .Grid,
    layout_settings := [], filters := [], group_settings := [],
    sorts := [], row_orders := [], field_orders := [],
    field_settings := [], created_at := 0, modified_at := 0,
    is_inline := false }

/-- A concrete database snapshot used by the duplication witness. -/
def sampleDatabaseData : DatabaseData :=
  { database_id := "b1",
    fields := [{ id := "bf", name := "name", field_type := .RichText }],
    rows := [{ id := -5, block_id := 1, cells := [("bf", [])],
               height := 60, visibility := true, created_at := 0 }],
    views := [sampleView "bv1", sampleView "bv2"] }

/-- C1 witness: duplicating the sample snapshot with designated view
bv1 and target id nb yields a fresh database id, the same counts, and
the target id for the designated view. -/
theorem from_database_data_spec_witness :
    (CreateDatabaseParams.from_database_data genA (fun n => (n : Int)) 7
        sampleDatabaseData "bv1" "nb").database_id ≠
      sampleDatabaseData.database_id ∧
    (CreateDatabaseParams.from_database_data genA (fun n => (n : Int)) 7
        sampleDatabaseData "bv1" "nb").rows.length =
      sampleDatabaseData.rows.length ∧
    (CreateDatabaseParams.from_database_data genA (fun n => (n : Int)) 7
        sampleDatabaseData "bv1" "nb").views.length =
      sampleDatabaseData.views.length := by
  have h := from_database_data_spec genA (fun n => (n : Int)) 7
    sampleDatabaseData "bv1" "nb" genA_injective
    (fun n => genA_ne_of_mem_b "b1" (by decide) n)
    (by
      intro n v hv
      have hv2 : v = sampleView "bv1" ∨ v = sampleView "bv2" := by
        simpa [sampleDatabaseData] using hv
      rcases hv2 with hv2 | hv2
      · rw [hv2]
        exact genA_ne_of_mem_b "bv1" (by decide) n
      · rw [hv2]
        exact genA_ne_of_mem_b "bv2" (by decide) n)
    (fun n => genA_ne_of_mem_b "nb" (by decide) n)
    (by
      intro a b hab
      simp only [] at hab
      exact_mod_cast hab)
    (by
      intro n r hr
      have hr2 : r.id = -5 := by
        have : r ∈ sampleDatabaseData.rows := hr
        simp only [sampleDatabaseData, List.mem_singleton] at this
        rw [this]
      rw [hr2]
      intro hcontra
      have hc2 : (n : Int) = -5 := hcontra
      omega)
  exact ⟨h.1, h.2.1.1, h.2.1.2.2⟩
